import Mathlib

/-!
Verification of the Blackijecky repository: a shallow embedding of
`protocol.py` (wire codec), `cards.py` (deck and hand), and the round logic
and team-name sanitization of `server.py`, together with theorems settling
the frozen claims about the specification.

Modelling conventions:
* A Python `bytes` value is a `List Nat` whose entries are byte values.
* A Python `str` used as a name field is a `List Nat` of Unicode code points;
  the short decision strings (pure ASCII) are Lean `String`s.
* Fallible Python code (functions that `raise`) returns `Except`.
* `random.shuffle` is modelled by quantifying over all permutations of the
  fresh deck.
-/

/-! ## UTF-8 codec (model of Python `str.encode("utf-8", errors="ignore")`
and `bytes.decode("utf-8", errors="ignore")`) -/

/-- Encode one code point to UTF-8 bytes.  A lone surrogate (or an
out-of-range value, which cannot occur in a Python `str`) is unencodable and
is dropped by the `ignore` error handler. -/
def utf8EncodeChar (c : Nat) : List Nat :=
  if c < 128 then [c]
  else if c < 2048 then [192 + c / 64, 128 + c % 64]
  else if 55296 ≤ c ∧ c ≤ 57343 then []
  else if c < 65536 then [224 + c / 4096, 128 + c / 64 % 64, 128 + c % 64]
  else if c < 1114112 then
    [240 + c / 262144, 128 + c / 4096 % 64, 128 + c / 64 % 64, 128 + c % 64]
  else []

/-- UTF-8 encoding of a sequence of code points, dropping unencodable ones
(`errors="ignore"`). -/
def utf8Encode (s : List Nat) : List Nat := s.flatMap utf8EncodeChar

/-- One step of UTF-8 decoding with `errors="ignore"`, with a fuel
parameter for structural recursion; each step consumes at least one byte, so
fuel equal to the length of the byte list (as used by `utf8Decode`) is
always sufficient and the fuel-exhausted row is unreachable.  Valid
sequences decode to their code point (overlong forms, surrogates and
out-of-range values are invalid); bytes that do not start a valid sequence
are dropped and decoding continues.  This is exact on valid UTF-8 and
best-effort (bytes dropped, never fatal) on malformed input, as the spec
requires. -/
def utf8DecodeAux : Nat → List Nat → List Nat
  | _, [] => []
  | 0, _ :: _ => []
  | fuel + 1, b :: rest =>
    if b < 128 then b :: utf8DecodeAux fuel rest
    else if b < 192 then
      utf8DecodeAux fuel rest
    else if b < 224 then
      match rest with
      | [] => []
      | b2 :: rest2 =>
        if 128 ≤ b2 ∧ b2 < 192 ∧ 128 ≤ (b - 192) * 64 + (b2 - 128) then
          ((b - 192) * 64 + (b2 - 128)) :: utf8DecodeAux fuel rest2
        else utf8DecodeAux fuel (b2 :: rest2)
    else if b < 240 then
      match rest with
      | b2 :: b3 :: rest3 =>
        if 128 ≤ b2 ∧ b2 < 192 ∧ 128 ≤ b3 ∧ b3 < 192 ∧
            2048 ≤ (b - 224) * 4096 + (b2 - 128) * 64 + (b3 - 128) ∧
            ((b - 224) * 4096 + (b2 - 128) * 64 + (b3 - 128) < 55296 ∨
              57343 < (b - 224) * 4096 + (b2 - 128) * 64 + (b3 - 128)) then
          ((b - 224) * 4096 + (b2 - 128) * 64 + (b3 - 128)) :: utf8DecodeAux fuel rest3
        else utf8DecodeAux fuel (b2 :: b3 :: rest3)
      | _ => []
    else if b < 248 then
      match rest with
      | b2 :: b3 :: b4 :: rest4 =>
        if 128 ≤ b2 ∧ b2 < 192 ∧ 128 ≤ b3 ∧ b3 < 192 ∧ 128 ≤ b4 ∧ b4 < 192 ∧
            65536 ≤ (b - 240) * 262144 + (b2 - 128) * 4096 + (b3 - 128) * 64 + (b4 - 128) ∧
            (b - 240) * 262144 + (b2 - 128) * 4096 + (b3 - 128) * 64 + (b4 - 128) < 1114112 then
          ((b - 240) * 262144 + (b2 - 128) * 4096 + (b3 - 128) * 64 + (b4 - 128)) ::
            utf8DecodeAux fuel rest4
        else utf8DecodeAux fuel (b2 :: b3 :: b4 :: rest4)
      | _ => []
    else utf8DecodeAux fuel rest

/-- UTF-8 decoding with `errors="ignore"` (see `utf8DecodeAux`). -/
def utf8Decode (l : List Nat) : List Nat := utf8DecodeAux l.length l

/-! ## protocol.py -/

def MAGIC_COOKIE : Nat := 0xABCDCDBA
def TYPE_OFFER : Nat := 0x2
def TYPE_REQUEST : Nat := 0x3
def TYPE_PAYLOAD : Nat := 0x4

def RESULT_NOT_OVER : Nat := 0x0
def RESULT_TIE : Nat := 0x1
def RESULT_LOSS : Nat := 0x2
def RESULT_WIN : Nat := 0x3

/-- Big-endian bytes of a 16-bit integer (struct format "H"). -/
def u16be (n : Nat) : List Nat := [n / 256 % 256, n % 256]

/-- Big-endian bytes of a 32-bit integer (struct format "I"). -/
def u32be (n : Nat) : List Nat :=
  [n / 16777216 % 256, n / 65536 % 256, n / 256 % 256, n % 256]

/-- Big-endian 16-bit read at offset `i` (struct unpack "H"). -/
def readU16 (l : List Nat) (i : Nat) : Nat := l.getD i 0 * 256 + l.getD (i + 1) 0

/-- Big-endian 32-bit read at offset `i` (struct unpack "I"). -/
def readU32 (l : List Nat) (i : Nat) : Nat :=
  l.getD i 0 * 16777216 + l.getD (i + 1) 0 * 65536 + l.getD (i + 2) 0 * 256 +
    l.getD (i + 3) 0

/-- Errors raised by the codec.  Python raises `ValueError` with a message;
each constructor stands for one such message (the spec's `MalformedMessage`
for the unpack errors, `InvalidArgument` for the pack errors):
`offerTooShort` = "Offer too short", `invalidOffer` = "Invalid offer",
`requestTooShort` = "Request too short", `invalidRequest` = "Invalid request",
`clientPayloadTooShort` = "Payload(client) too short",
`serverPayloadTooShort` = "Payload(server) too short",
`invalidPayload` = "Invalid payload",
`badNumRounds` = "num_rounds must be 1..255",
`badDecision` = "decision must be ..." (the two allowed strings),
`badResult` = "bad result", `badRank` = "rank must be 1..13",
`badSuit` = "suit must be 0..3"; `fieldOutOfRange` is `struct.error` for a
value that does not fit its fixed-width field. -/
inductive ProtoError where
  | offerTooShort | invalidOffer | requestTooShort | invalidRequest
  | clientPayloadTooShort | serverPayloadTooShort | invalidPayload
  | badNumRounds | badDecision | badResult | badRank | badSuit
  | fieldOutOfRange
deriving DecidableEq

/-- `pack_name_32`: UTF-8 encode, truncate to 32 bytes, NUL-pad to 32. -/
def pack_name_32 (name : List Nat) : List Nat :=
  let b := (utf8Encode name).take 32
  b ++ List.replicate (32 - b.length) 0

/-- `unpack_name_32`: first 32 bytes, cut at first NUL, best-effort decode. -/
def unpack_name_32 (b : List Nat) : List Nat :=
  utf8Decode ((b.take 32).takeWhile (fun x => x != 0))

/-- `pack_offer`: cookie(4) | type(1) | tcp_port(2) | server_name(32).
`struct.pack("!IBH32s", ...)` fails if the port does not fit in 16 bits. -/
def pack_offer (tcp_port : Nat) (server_name : List Nat) :
    Except ProtoError (List Nat) :=
  if tcp_port < 65536 then
    .ok (u32be MAGIC_COOKIE ++ [TYPE_OFFER] ++ u16be tcp_port ++
      pack_name_32 server_name)
  else .error .fieldOutOfRange

/-- `unpack_offer`: validate length and header, return (tcp_port, name). -/
def unpack_offer (data : List Nat) : Except ProtoError (Nat × List Nat) :=
  if data.length < 39 then .error .offerTooShort
  else if readU32 data 0 ≠ MAGIC_COOKIE ∨ data.getD 4 0 ≠ TYPE_OFFER then
    .error .invalidOffer
  else .ok (readU16 data 5, unpack_name_32 ((data.drop 7).take 32))

/-- `pack_request`: cookie(4) | type(1) | num_rounds(1) | team_name(32). -/
def pack_request (num_rounds : Nat) (team_name : List Nat) :
    Except ProtoError (List Nat) :=
  if 1 ≤ num_rounds ∧ num_rounds ≤ 255 then
    .ok (u32be MAGIC_COOKIE ++ [TYPE_REQUEST] ++ [num_rounds] ++
      pack_name_32 team_name)
  else .error .badNumRounds

/-- `unpack_request`: validate length and header, return (num_rounds, name). -/
def unpack_request (data : List Nat) : Except ProtoError (Nat × List Nat) :=
  if data.length < 38 then .error .requestTooShort
  else if readU32 data 0 ≠ MAGIC_COOKIE ∨ data.getD 4 0 ≠ TYPE_REQUEST then
    .error .invalidRequest
  else .ok (data.getD 5 0, unpack_name_32 ((data.drop 6).take 32))

/-- `pack_payload_client`: cookie(4) | type(1) | decision(5 ASCII bytes).
The decision is checked against the closed set first; the ASCII encoding of
either allowed string is its code points. -/
def pack_payload_client (decision : String) : Except ProtoError (List Nat) :=
  if decision = "Hittt" ∨ decision = "Stand" then
    .ok (u32be MAGIC_COOKIE ++ [TYPE_PAYLOAD] ++ decision.data.map Char.toNat)
  else .error .badDecision

/-- `unpack_payload_client`: validate length and header, return the decision
decoded with `decode("ascii", errors="ignore")` (bytes ≥ 128 are dropped). -/
def unpack_payload_client (data : List Nat) : Except ProtoError String :=
  if data.length < 10 then .error .clientPayloadTooShort
  else if readU32 data 0 ≠ MAGIC_COOKIE ∨ data.getD 4 0 ≠ TYPE_PAYLOAD then
    .error .invalidPayload
  else .ok (String.mk ((((data.drop 5).take 5).filter
    (fun b => decide (b < 128))).map Char.ofNat))

/-- `pack_payload_server`: cookie(4) | type(1) | result(1) | rank(2) | suit(1),
with the range checks in source order (result, then rank, then suit). -/
def pack_payload_server (result rank suit : Nat) : Except ProtoError (List Nat) :=
  if result = RESULT_NOT_OVER ∨ result = RESULT_TIE ∨ result = RESULT_LOSS ∨
      result = RESULT_WIN then
    if 1 ≤ rank ∧ rank ≤ 13 then
      if suit ≤ 3 then
        .ok (u32be MAGIC_COOKIE ++ [TYPE_PAYLOAD] ++ [result] ++ u16be rank ++
          [suit])
      else .error .badSuit
    else .error .badRank
  else .error .badResult

/-- `unpack_payload_server`: validate length and header, return
(result, rank, suit). -/
def unpack_payload_server (data : List Nat) :
    Except ProtoError (Nat × Nat × Nat) :=
  if data.length < 9 then .error .serverPayloadTooShort
  else if readU32 data 0 ≠ MAGIC_COOKIE ∨ data.getD 4 0 ≠ TYPE_PAYLOAD then
    .error .invalidPayload
  else .ok (data.getD 5 0, readU16 data 6, data.getD 8 0)

/-- A code-point sequence the round trip is stated for: a value of a Python
`str` (scalar values, no lone surrogates), without NUL (the wire format is
NUL-terminated), whose UTF-8 encoding fits the 32-byte field. -/
def ValidName (name : List Nat) : Prop :=
  (∀ c ∈ name, 0 < c ∧ c < 1114112 ∧ (c < 55296 ∨ 57343 < c)) ∧
    (utf8Encode name).length ≤ 32

/-! ## cards.py -/

/-- A card is a `(rank, suit)` pair, rank in 1..13, suit in 0..3. -/
abbrev Card := Nat × Nat

/-- `card_value`: Ace (rank 1) is always 11, 2..10 their number, faces 10. -/
def card_value (rank : Nat) : Nat :=
  if rank = 1 then 11
  else if 2 ≤ rank ∧ rank ≤ 10 then rank
  else 10

/-- The freshly built deck of `Deck.__init__`, before the shuffle:
`[(rank, suit) for suit in range(4) for rank in RANKS]` with RANKS = 1..13.
The shuffle is modelled by quantifying over permutations of this list. -/
def freshDeck : List Card :=
  (List.range 4).flatMap (fun suit => (List.range 13).map (fun i => (i + 1, suit)))

/-- The only deck error: `RuntimeError("Deck is empty")`. -/
inductive DeckError where
  | deckEmpty
deriving DecidableEq

/-- `Deck.draw`: pop the card at the end of the list; error if empty. -/
def Deck.draw (d : List Card) : Except DeckError (Card × List Card) :=
  match d.getLast? with
  | none => .error .deckEmpty
  | some c => .ok (c, d.dropLast)

/-- `n` successive draws, in order; an empty deck anywhere is fatal. -/
def drawMany : Nat → List Card → Except DeckError (List Card × List Card)
  | 0, d => .ok ([], d)
  | n + 1, d =>
    match Deck.draw d with
    | .error e => .error e
    | .ok (c, d') =>
      match drawMany n d' with
      | .ok (cs, d'') => .ok (c :: cs, d'')
      | .error e => .error e

/-- `Hand.total`: sum of `card_value` over the ranks of the hand. -/
def hand_total (h : List Card) : Nat := (h.map (fun c => card_value c.1)).sum

/-- `Hand.bust`: total strictly greater than 21. -/
def hand_bust (h : List Card) : Bool := decide (hand_total h > 21)

/-! ## server.py -/

/-- How a modelled round can fail: the deck runs dry (`RuntimeError` from
`Deck.draw`), the peer sends no further decision frame (`ConnectionError`
from `recv_exact`), or `_read_decision` rejects the decision string
(`ValueError`). -/
inductive RoundErr where
  | deckEmpty
  | connClosed
  | invalidDecision
deriving DecidableEq

/-- The final comparison of `_play_round` (lines 288-293): player total
above dealer total is a win, below is a loss, equal is a tie. -/
def resolve_result (p_total d_total : Nat) : Nat :=
  if p_total > d_total then RESULT_WIN
  else if d_total > p_total then RESULT_LOSS
  else RESULT_TIE

/-- The dealer draw loop of `_play_round` (`while dealer.total() < 17`),
returning the payloads sent from the loop on (result code paired with the
card of the payload) and the round outcome.  `last_card` is
`last_dealer_card`, `p_total` the player's (unchanging) total. -/
def dealer_draw_loop (deck : List Card) (dealer : List Card) (last_card : Card)
    (p_total : Nat) : Except RoundErr (List (Nat × Card) × Nat) :=
  if hand_total dealer < 17 then
    match h : Deck.draw deck with
    | .error _ => .error .deckEmpty
    | .ok (c, deck') =>
      if hand_bust (dealer ++ [c]) then .ok ([(RESULT_WIN, c)], RESULT_WIN)
      else
        match dealer_draw_loop deck' (dealer ++ [c]) c p_total with
        | .ok (sent, out) => .ok ((RESULT_NOT_OVER, c) :: sent, out)
        | .error e => .error e
  else
    .ok ([(resolve_result p_total (hand_total dealer), last_card)],
      resolve_result p_total (hand_total dealer))
termination_by deck.length
decreasing_by
  simp only [Deck.draw] at h
  cases hg : deck.getLast? with
  | none => simp [hg] at h
  | some c0 =>
    simp only [hg] at h
    cases h
    cases deck with
    | nil => simp at hg
    | cons a l => simp [List.length_dropLast]

/-- The player turn of `_play_round` (lines 242-267), driven by the queue of
decision strings the client will send; includes the hole-card reveal that
follows a Stand, and the dealer turn after it.  The decision validation of
`_read_decision` is folded in; an exhausted queue models the peer closing
the connection. -/
def player_turn_loop (decisions : List String) (deck : List Card)
    (player dealer : List Card) (d2 : Card) :
    Except RoundErr (List (Nat × Card) × Nat) :=
  match decisions with
  | [] => .error .connClosed
  | dec :: rest =>
    if dec = "Hittt" ∨ dec = "Stand" then
      if dec = "Stand" then
        match dealer_draw_loop deck dealer d2 (hand_total player) with
        | .ok (sent, out) => .ok ((RESULT_NOT_OVER, d2) :: sent, out)
        | .error e => .error e
      else
        match Deck.draw deck with
        | .error _ => .error .deckEmpty
        | .ok (c, deck') =>
          if hand_bust (player ++ [c]) then .ok ([(RESULT_LOSS, c)], RESULT_LOSS)
          else
            match player_turn_loop rest deck' (player ++ [c]) dealer d2 with
            | .ok (sent, out) => .ok ((RESULT_NOT_OVER, c) :: sent, out)
            | .error e => .error e
    else .error .invalidDecision

/-- `_play_round`: deal player-1, player-2, dealer-up, dealer-hole from the
given (already shuffled) deck, send the first three as NOT_OVER payloads,
then run the player turn (and, after a Stand, the dealer turn).  Returns the
full ordered list of payloads sent and the round outcome. -/
def play_round (deck : List Card) (decisions : List String) :
    Except RoundErr (List (Nat × Card) × Nat) :=
  match Deck.draw deck with
  | .error _ => .error .deckEmpty
  | .ok (p1, k1) =>
    match Deck.draw k1 with
    | .error _ => .error .deckEmpty
    | .ok (p2, k2) =>
      match Deck.draw k2 with
      | .error _ => .error .deckEmpty
      | .ok (d1, k3) =>
        match Deck.draw k3 with
        | .error _ => .error .deckEmpty
        | .ok (d2, k4) =>
          match player_turn_loop decisions k4 [p1, p2] [d1, d2] d2 with
          | .ok (sent, out) =>
            .ok ((RESULT_NOT_OVER, p1) :: (RESULT_NOT_OVER, p2) ::
              (RESULT_NOT_OVER, d1) :: sent, out)
          | .error e => .error e

/-- Python `str.isprintable` on one code point, exact on the ASCII range
(`c < 128`): printable iff between space (0x20) and tilde (0x7E) — the
control characters 0x00..0x1F and DEL 0x7F are category Cc, hence
non-printable.  For code points at or above 128 Python consults the Unicode
category table, which this embedding does not model (e.g. U+00E9 is
printable in Python but outside 0x20..0x7E), so every theorem that depends
on this classification restricts the name to ASCII code points. -/
def pyIsPrintableAscii (c : Nat) : Bool := decide (32 ≤ c ∧ c ≤ 126)

/-- Python `str.strip` whitespace on one code point, exact on the ASCII
range (`c < 128`): space, tab through carriage return, and the
file/group/record/unit separators 0x1C-0x1F. -/
def pyIsSpaceAscii (c : Nat) : Bool :=
  decide (c = 32 ∨ (9 ≤ c ∧ c ≤ 13) ∨ (28 ≤ c ∧ c ≤ 31))

/-- Python `str.strip()`: drop whitespace from both ends. -/
def pyStrip (s : List Nat) : List Nat :=
  ((s.dropWhile pyIsSpaceAscii).reverse.dropWhile pyIsSpaceAscii).reverse

/-- The placeholder name `"UnknownTeam"` as code points. -/
def unknownTeam : List Nat := [85, 110, 107, 110, 111, 119, 110, 84, 101, 97, 109]

/-- `BlackjackServer._sanitize_team_name`: every non-printable character is
replaced by `"?"` (code point 63), the result is stripped, an empty result
becomes `"UnknownTeam"`, and the final name is capped at 32 characters.
Exact on ASCII names (every code point below 128), where
`pyIsPrintableAscii` and `pyIsSpaceAscii` agree with Python; the theorems
about it restrict names to that domain. -/
def sanitize_team_name (name : List Nat) : List Nat :=
  let replaced := name.map (fun ch => if pyIsPrintableAscii ch then ch else 63)
  let stripped := pyStrip replaced
  let final := if stripped = [] then unknownTeam else stripped
  final.take 32

/-! ## Deck lemmas -/

theorem draw_nil : Deck.draw [] = .error .deckEmpty := rfl

theorem draw_concat (l : List Card) (c : Card) : Deck.draw (l ++ [c]) = .ok (c, l) := by
  simp [Deck.draw, List.getLast?_concat, List.dropLast_concat]

theorem draw_ok_eq {d d' : List Card} {c : Card} (h : Deck.draw d = .ok (c, d')) :
    d = d' ++ [c] := by
  rcases List.eq_nil_or_concat d with rfl | ⟨L, b, rfl⟩
  · simp [Deck.draw] at h
  · rw [List.concat_eq_append, draw_concat] at h
    cases h
    simp

theorem draw_length {d d' : List Card} {c : Card} (h : Deck.draw d = .ok (c, d')) :
    d.length = d'.length + 1 := by
  rw [draw_ok_eq h]
  simp

theorem drawMany_all : ∀ (n : Nat) (d : List Card), d.length = n →
    drawMany n d = .ok (d.reverse, []) := by
  intro n
  induction n with
  | zero => intro d hd; rw [List.length_eq_zero] at hd; subst hd; rfl
  | succ n ih =>
    intro d hd
    rcases List.eq_nil_or_concat d with rfl | ⟨L, b, rfl⟩
    · simp at hd
    · rw [List.concat_eq_append] at *
      have hL : L.length = n := by simpa using hd
      simp [drawMany, draw_concat, ih L hL]

theorem drawMany_exhaust : ∀ (n : Nat) (d : List Card), d.length < n →
    drawMany n d = .error .deckEmpty := by
  intro n
  induction n with
  | zero => intro d hd; omega
  | succ n ih =>
    intro d hd
    rcases List.eq_nil_or_concat d with rfl | ⟨L, b, rfl⟩
    · rfl
    · rw [List.concat_eq_append] at *
      have hL : L.length < n := by simp at hd; omega
      simp [drawMany, draw_concat, ih L hL]

theorem freshDeck_nodup : freshDeck.Nodup := by decide

theorem freshDeck_length : freshDeck.length = 52 := by decide

theorem mem_freshDeck {r s : Nat} (h1 : 1 ≤ r) (h2 : r ≤ 13) (h3 : s ≤ 3) :
    (r, s) ∈ freshDeck := by
  simp only [freshDeck, List.mem_flatMap, List.mem_map, List.mem_range]
  exact ⟨s, by omega, r - 1, by omega, by simp; omega⟩

/-- C8: a fresh `Deck` (any shuffle of the 52-card list) holds every
(rank, suit) pair with rank in 1..13 and suit in 0..3 exactly once; 52
successive draws return the 52 distinct cards (the deck read back to front)
leaving the deck empty, a 53rd draw fails with the deck-exhausted error,
and each draw removes exactly the returned card from the end of the deck. -/
theorem c8_deck_integrity (d : List Card) (hperm : d.Perm freshDeck) :
    drawMany 52 d = .ok (d.reverse, []) ∧
    d.reverse.Nodup ∧ d.reverse.length = 52 ∧
    (∀ r s : Nat, 1 ≤ r → r ≤ 13 → s ≤ 3 → (r, s) ∈ d.reverse) ∧
    drawMany 53 d = .error .deckEmpty ∧
    (∀ (q q' : List Card) (c : Card), Deck.draw q = .ok (c, q') → q = q' ++ [c]) := by
  have hlen : d.length = 52 := by rw [hperm.length_eq, freshDeck_length]
  refine ⟨drawMany_all 52 d hlen, ?_, by simp [hlen], ?_, ?_, ?_⟩
  · rw [List.nodup_reverse]
    exact hperm.nodup_iff.mpr freshDeck_nodup
  · intro r s h1 h2 h3
    rw [List.mem_reverse]
    exact hperm.mem_iff.mpr (mem_freshDeck h1 h2 h3)
  · exact drawMany_exhaust 53 d (by omega)
  · intro q q' c h
    exact draw_ok_eq h

/-- Witness for C8 at the unshuffled fresh deck itself. -/
theorem c8_deck_integrity_witness :
    drawMany 52 freshDeck = .ok (freshDeck.reverse, []) ∧
    drawMany 53 freshDeck = .error .deckEmpty :=
  ⟨(c8_deck_integrity freshDeck (List.Perm.refl _)).1,
    (c8_deck_integrity freshDeck (List.Perm.refl _)).2.2.2.2.1⟩

/-! ## Wire codec validation (C2, C3) -/

/-- C2: every decode function rejects an input shorter than the message's
fixed length with the "too short" error for that message, and an input of
sufficient length whose first four bytes do not read back as the magic
cookie 0xABCDCDBA or whose fifth byte is not the expected type tag with the
"invalid" error for that message; in each such case the returned value is
exactly that error, independent of the remaining fields. -/
theorem c2_decode_validation :
    (∀ data : List Nat,
      (data.length < 39 → unpack_offer data = .error .offerTooShort) ∧
      (39 ≤ data.length →
        readU32 data 0 ≠ MAGIC_COOKIE ∨ data.getD 4 0 ≠ TYPE_OFFER →
        unpack_offer data = .error .invalidOffer)) ∧
    (∀ data : List Nat,
      (data.length < 38 → unpack_request data = .error .requestTooShort) ∧
      (38 ≤ data.length →
        readU32 data 0 ≠ MAGIC_COOKIE ∨ data.getD 4 0 ≠ TYPE_REQUEST →
        unpack_request data = .error .invalidRequest)) ∧
    (∀ data : List Nat,
      (data.length < 10 → unpack_payload_client data = .error .clientPayloadTooShort) ∧
      (10 ≤ data.length →
        readU32 data 0 ≠ MAGIC_COOKIE ∨ data.getD 4 0 ≠ TYPE_PAYLOAD →
        unpack_payload_client data = .error .invalidPayload)) ∧
    (∀ data : List Nat,
      (data.length < 9 → unpack_payload_server data = .error .serverPayloadTooShort) ∧
      (9 ≤ data.length →
        readU32 data 0 ≠ MAGIC_COOKIE ∨ data.getD 4 0 ≠ TYPE_PAYLOAD →
        unpack_payload_server data = .error .invalidPayload)) := by
  refine ⟨fun data => ⟨fun h => ?_, fun h1 h2 => ?_⟩,
    fun data => ⟨fun h => ?_, fun h1 h2 => ?_⟩,
    fun data => ⟨fun h => ?_, fun h1 h2 => ?_⟩,
    fun data => ⟨fun h => ?_, fun h1 h2 => ?_⟩⟩ <;>
    simp only [unpack_offer, unpack_request, unpack_payload_client, unpack_payload_server]
  · rw [if_pos h]
  · rw [if_neg (by omega), if_pos h2]
  · rw [if_pos h]
  · rw [if_neg (by omega), if_pos h2]
  · rw [if_pos h]
  · rw [if_neg (by omega), if_pos h2]
  · rw [if_pos h]
  · rw [if_neg (by omega), if_pos h2]

/-- Witness for C2: concrete too-short and bad-header inputs for all four
decoders. -/
theorem c2_decode_validation_witness :
    unpack_offer [] = .error .offerTooShort ∧
    unpack_offer (List.replicate 39 0) = .error .invalidOffer ∧
    unpack_request [] = .error .requestTooShort ∧
    unpack_request (List.replicate 38 0) = .error .invalidRequest ∧
    unpack_payload_client [] = .error .clientPayloadTooShort ∧
    unpack_payload_client (List.replicate 10 0) = .error .invalidPayload ∧
    unpack_payload_server [] = .error .serverPayloadTooShort ∧
    unpack_payload_server (List.replicate 9 0) = .error .invalidPayload :=
  ⟨(c2_decode_validation.1 []).1 (by decide),
    (c2_decode_validation.1 (List.replicate 39 0)).2 (by decide) (by decide),
    (c2_decode_validation.2.1 []).1 (by decide),
    (c2_decode_validation.2.1 (List.replicate 38 0)).2 (by decide) (by decide),
    (c2_decode_validation.2.2.1 []).1 (by decide),
    (c2_decode_validation.2.2.1 (List.replicate 10 0)).2 (by decide) (by decide),
    (c2_decode_validation.2.2.2 []).1 (by decide),
    (c2_decode_validation.2.2.2 (List.replicate 9 0)).2 (by decide) (by decide)⟩

/-- The membership test of `pack_payload_server` on the result code is the
range check result ≤ 3. -/
theorem result_mem_iff (result : Nat) :
    (result = RESULT_NOT_OVER ∨ result = RESULT_TIE ∨ result = RESULT_LOSS ∨
      result = RESULT_WIN) ↔ result ≤ 3 := by
  simp only [RESULT_NOT_OVER, RESULT_TIE, RESULT_LOSS, RESULT_WIN]
  omega

/-- C3: encoding succeeds (producing the fixed-layout bytes) exactly on
in-range inputs, and fails with the matching invalid-argument error, with no
bytes produced, on any out-of-range numeric field or unknown decision:
`pack_request` rejects `num_rounds` outside 1..255, `pack_payload_server`
rejects a result outside 0..3, a rank outside 1..13 and a suit outside 0..3,
and `pack_payload_client` rejects any decision other than "Hittt"/"Stand". -/
theorem c3_encode_validation :
    (∀ (n : Nat) (team : List Nat), 1 ≤ n → n ≤ 255 →
      pack_request n team =
        .ok (u32be MAGIC_COOKIE ++ [TYPE_REQUEST] ++ [n] ++ pack_name_32 team)) ∧
    (∀ (n : Nat) (team : List Nat), n = 0 ∨ 255 < n →
      pack_request n team = .error .badNumRounds) ∧
    (∀ d : String, d = "Hittt" ∨ d = "Stand" →
      pack_payload_client d =
        .ok (u32be MAGIC_COOKIE ++ [TYPE_PAYLOAD] ++ d.data.map Char.toNat)) ∧
    (∀ d : String, d ≠ "Hittt" → d ≠ "Stand" →
      pack_payload_client d = .error .badDecision) ∧
    (∀ result rank suit : Nat, result ≤ 3 → 1 ≤ rank → rank ≤ 13 → suit ≤ 3 →
      pack_payload_server result rank suit =
        .ok (u32be MAGIC_COOKIE ++ [TYPE_PAYLOAD] ++ [result] ++ u16be rank ++ [suit])) ∧
    (∀ result rank suit : Nat, 3 < result →
      pack_payload_server result rank suit = .error .badResult) ∧
    (∀ result rank suit : Nat, result ≤ 3 → rank = 0 ∨ 13 < rank →
      pack_payload_server result rank suit = .error .badRank) ∧
    (∀ result rank suit : Nat, result ≤ 3 → 1 ≤ rank → rank ≤ 13 → 3 < suit →
      pack_payload_server result rank suit = .error .badSuit) := by
  refine ⟨fun n team h1 h2 => ?_, fun n team h => ?_, fun d h => ?_,
    fun d h1 h2 => ?_, fun result rank suit h1 h2 h3 h4 => ?_,
    fun result rank suit h1 => ?_, fun result rank suit h1 h2 => ?_,
    fun result rank suit h1 h2 h3 h4 => ?_⟩
  · rw [pack_request, if_pos ⟨h1, h2⟩]
  · rw [pack_request, if_neg (by omega)]
  · rw [pack_payload_client, if_pos h]
  · rw [pack_payload_client, if_neg (by simp [h1, h2])]
  · rw [pack_payload_server, if_pos ((result_mem_iff result).mpr h1), if_pos ⟨h2, h3⟩, if_pos h4]
  · rw [pack_payload_server, if_neg (by rw [result_mem_iff]; omega)]
  · rw [pack_payload_server, if_pos ((result_mem_iff result).mpr h1), if_neg (by omega)]
  · rw [pack_payload_server, if_pos ((result_mem_iff result).mpr h1), if_pos ⟨h2, h3⟩, if_neg (by omega)]

/-- Witness for C3 at concrete in-range and out-of-range arguments. -/
theorem c3_encode_validation_witness :
    pack_request 3 [65] = .ok (u32be MAGIC_COOKIE ++ [TYPE_REQUEST] ++ [3] ++ pack_name_32 [65]) ∧
    pack_request 0 [65] = .error .badNumRounds ∧
    pack_request 256 [65] = .error .badNumRounds ∧
    pack_payload_client "Hittt" =
      .ok (u32be MAGIC_COOKIE ++ [TYPE_PAYLOAD] ++ "Hittt".data.map Char.toNat) ∧
    pack_payload_client "Fold!" = .error .badDecision ∧
    pack_payload_server 0 1 0 =
      .ok (u32be MAGIC_COOKIE ++ [TYPE_PAYLOAD] ++ [0] ++ u16be 1 ++ [0]) ∧
    pack_payload_server 4 1 0 = .error .badResult ∧
    pack_payload_server 0 14 0 = .error .badRank ∧
    pack_payload_server 0 1 4 = .error .badSuit :=
  ⟨c3_encode_validation.1 3 [65] (by decide) (by decide),
    c3_encode_validation.2.1 0 [65] (Or.inl rfl),
    c3_encode_validation.2.1 256 [65] (Or.inr (by decide)),
    c3_encode_validation.2.2.1 "Hittt" (Or.inl rfl),
    c3_encode_validation.2.2.2.1 "Fold!" (by decide) (by decide),
    c3_encode_validation.2.2.2.2.1 0 1 0 (by decide) (by decide) (by decide) (by decide),
    c3_encode_validation.2.2.2.2.2.1 4 1 0 (by decide),
    c3_encode_validation.2.2.2.2.2.2.1 0 14 0 (by decide) (Or.inr (by decide)),
    c3_encode_validation.2.2.2.2.2.2.2 0 1 4 (by decide) (by decide) (by decide) (by decide)⟩

/-! ## UTF-8 codec lemmas (for C1) -/

theorem utf8DecodeAux_congr : ∀ (f g : Nat) (l : List Nat),
    l.length ≤ f → l.length ≤ g → utf8DecodeAux f l = utf8DecodeAux g l := by
  intro f
  induction f with
  | zero =>
    intro g l hf _
    have hl : l = [] := by cases l with
      | nil => rfl
      | cons a t => simp at hf
    subst hl
    simp [utf8DecodeAux]
  | succ f ih =>
    intro g l hf hg
    cases l with
    | nil => simp [utf8DecodeAux]
    | cons b rest =>
      cases g with
      | zero => simp at hg
      | succ g =>
        have hrf : rest.length ≤ f := by simp at hf; omega
        have hrg : rest.length ≤ g := by simp at hg; omega
        simp only [utf8DecodeAux]
        by_cases h1 : b < 128
        · simp only [if_pos h1, ih g rest hrf hrg]
        · simp only [if_neg h1]
          by_cases h2 : b < 192
          · simp only [if_pos h2, ih g rest hrf hrg]
          · simp only [if_neg h2]
            by_cases h3 : b < 224
            · simp only [if_pos h3]
              cases rest with
              | nil => rfl
              | cons b2 rest2 =>
                have k2f : rest2.length ≤ f := by simp at hrf; omega
                have k2g : rest2.length ≤ g := by simp at hrg; omega
                by_cases hc : 128 ≤ b2 ∧ b2 < 192 ∧ 128 ≤ (b - 192) * 64 + (b2 - 128)
                · simp only [if_pos hc, ih g rest2 k2f k2g]
                · simp only [if_neg hc, ih g (b2 :: rest2) hrf hrg]
            · simp only [if_neg h3]
              by_cases h4 : b < 240
              · simp only [if_pos h4]
                match rest, hrf, hrg with
                | [], _, _ => rfl
                | [b2], _, _ => rfl
                | b2 :: b3 :: rest3, hrf, hrg =>
                  have k3f : rest3.length ≤ f := by simp at hrf; omega
                  have k3g : rest3.length ≤ g := by simp at hrg; omega
                  have kf : (b2 :: b3 :: rest3).length ≤ f := by simpa using hrf
                  have kg : (b2 :: b3 :: rest3).length ≤ g := by simpa using hrg
                  by_cases hc : 128 ≤ b2 ∧ b2 < 192 ∧ 128 ≤ b3 ∧ b3 < 192 ∧
                      2048 ≤ (b - 224) * 4096 + (b2 - 128) * 64 + (b3 - 128) ∧
                      ((b - 224) * 4096 + (b2 - 128) * 64 + (b3 - 128) < 55296 ∨
                        57343 < (b - 224) * 4096 + (b2 - 128) * 64 + (b3 - 128))
                  · simp only [if_pos hc, ih g rest3 k3f k3g]
                  · simp only [if_neg hc, ih g (b2 :: b3 :: rest3) kf kg]
              · simp only [if_neg h4]
                by_cases h5 : b < 248
                · simp only [if_pos h5]
                  match rest, hrf, hrg with
                  | [], _, _ => rfl
                  | [b2], _, _ => rfl
                  | [b2, b3], _, _ => rfl
                  | b2 :: b3 :: b4 :: rest4, hrf, hrg =>
                    have k4f : rest4.length ≤ f := by simp at hrf; omega
                    have k4g : rest4.length ≤ g := by simp at hrg; omega
                    have kf : (b2 :: b3 :: b4 :: rest4).length ≤ f := by simpa using hrf
                    have kg : (b2 :: b3 :: b4 :: rest4).length ≤ g := by simpa using hrg
                    by_cases hc : 128 ≤ b2 ∧ b2 < 192 ∧ 128 ≤ b3 ∧ b3 < 192 ∧
                        128 ≤ b4 ∧ b4 < 192 ∧
                        65536 ≤ (b - 240) * 262144 + (b2 - 128) * 4096 + (b3 - 128) * 64 + (b4 - 128) ∧
                        (b - 240) * 262144 + (b2 - 128) * 4096 + (b3 - 128) * 64 + (b4 - 128) < 1114112
                    · simp only [if_pos hc, ih g rest4 k4f k4g]
                    · simp only [if_neg hc, ih g (b2 :: b3 :: b4 :: rest4) kf kg]
                · simp only [if_neg h5, ih g rest hrf hrg]

theorem utf8DecodeAux_one (f b : Nat) (rest : List Nat) (hb : b < 128) :
    utf8DecodeAux (f + 1) (b :: rest) = b :: utf8DecodeAux f rest := by
  simp only [utf8DecodeAux, if_pos hb]

theorem utf8DecodeAux_two (f b b2 : Nat) (rest : List Nat) (h1 : 192 ≤ b) (h2 : b < 224)
    (hc : 128 ≤ b2 ∧ b2 < 192 ∧ 128 ≤ (b - 192) * 64 + (b2 - 128)) :
    utf8DecodeAux (f + 1) (b :: b2 :: rest) =
      ((b - 192) * 64 + (b2 - 128)) :: utf8DecodeAux f rest := by
  have n1 : ¬ b < 128 := by omega
  have n2 : ¬ b < 192 := by omega
  simp only [utf8DecodeAux, if_neg n1, if_neg n2, if_pos h2, if_pos hc]

theorem utf8DecodeAux_three (f b b2 b3 : Nat) (rest : List Nat) (h1 : 224 ≤ b) (h2 : b < 240)
    (hc : 128 ≤ b2 ∧ b2 < 192 ∧ 128 ≤ b3 ∧ b3 < 192 ∧
      2048 ≤ (b - 224) * 4096 + (b2 - 128) * 64 + (b3 - 128) ∧
      ((b - 224) * 4096 + (b2 - 128) * 64 + (b3 - 128) < 55296 ∨
        57343 < (b - 224) * 4096 + (b2 - 128) * 64 + (b3 - 128))) :
    utf8DecodeAux (f + 1) (b :: b2 :: b3 :: rest) =
      ((b - 224) * 4096 + (b2 - 128) * 64 + (b3 - 128)) :: utf8DecodeAux f rest := by
  have n1 : ¬ b < 128 := by omega
  have n2 : ¬ b < 192 := by omega
  have n3 : ¬ b < 224 := by omega
  simp only [utf8DecodeAux, if_neg n1, if_neg n2, if_neg n3, if_pos h2, if_pos hc]

theorem utf8DecodeAux_four (f b b2 b3 b4 : Nat) (rest : List Nat) (h1 : 240 ≤ b) (h2 : b < 248)
    (hc : 128 ≤ b2 ∧ b2 < 192 ∧ 128 ≤ b3 ∧ b3 < 192 ∧ 128 ≤ b4 ∧ b4 < 192 ∧
      65536 ≤ (b - 240) * 262144 + (b2 - 128) * 4096 + (b3 - 128) * 64 + (b4 - 128) ∧
      (b - 240) * 262144 + (b2 - 128) * 4096 + (b3 - 128) * 64 + (b4 - 128) < 1114112) :
    utf8DecodeAux (f + 1) (b :: b2 :: b3 :: b4 :: rest) =
      ((b - 240) * 262144 + (b2 - 128) * 4096 + (b3 - 128) * 64 + (b4 - 128)) ::
        utf8DecodeAux f rest := by
  have n1 : ¬ b < 128 := by omega
  have n2 : ¬ b < 192 := by omega
  have n3 : ¬ b < 224 := by omega
  have n4 : ¬ b < 240 := by omega
  simp only [utf8DecodeAux, if_neg n1, if_neg n2, if_neg n3, if_neg n4, if_pos h2, if_pos hc]

/-- Decoding the encoding of one scalar value (not a surrogate, in Unicode
range) prepends exactly that code point. -/
theorem utf8Decode_encodeChar (c : Nat) (hc : c < 1114112)
    (hs : c < 55296 ∨ 57343 < c) (rest : List Nat) :
    utf8Decode (utf8EncodeChar c ++ rest) = c :: utf8Decode rest := by
  by_cases hc1 : c < 128
  · rw [show utf8EncodeChar c = [c] from by simp [utf8EncodeChar, hc1]]
    simp only [List.singleton_append, utf8Decode, List.length_cons]
    rw [utf8DecodeAux_one rest.length c rest hc1]
  · by_cases hc2 : c < 2048
    · rw [show utf8EncodeChar c = [192 + c / 64, 128 + c % 64] from by
        simp [utf8EncodeChar, hc1, hc2]]
      simp only [List.cons_append, List.nil_append, utf8Decode, List.length_cons]
      rw [utf8DecodeAux_two (rest.length + 1) _ _ rest (by omega) (by omega)
        ⟨by omega, by omega, by omega⟩]
      rw [utf8DecodeAux_congr (rest.length + 1) rest.length rest (by omega) (by omega),
        show (192 + c / 64 - 192) * 64 + (128 + c % 64 - 128) = c from by omega]
    · by_cases hc3 : c < 65536
      · rw [show utf8EncodeChar c = [224 + c / 4096, 128 + c / 64 % 64, 128 + c % 64] from by
          simp [utf8EncodeChar, hc1, hc2, hc3]; omega]
        simp only [List.cons_append, List.nil_append, utf8Decode, List.length_cons]
        rw [utf8DecodeAux_three (rest.length + 2) _ _ _ rest (by omega) (by omega)
          ⟨by omega, by omega, by omega, by omega, by omega, by omega⟩]
        rw [utf8DecodeAux_congr (rest.length + 2) rest.length rest (by omega) (by omega),
          show (224 + c / 4096 - 224) * 4096 + (128 + c / 64 % 64 - 128) * 64 +
            (128 + c % 64 - 128) = c from by omega]
      · rw [show utf8EncodeChar c =
            [240 + c / 262144, 128 + c / 4096 % 64, 128 + c / 64 % 64, 128 + c % 64] from by
          simp [utf8EncodeChar, hc1, hc2, hc3, hc]; omega]
        simp only [List.cons_append, List.nil_append, utf8Decode, List.length_cons]
        rw [utf8DecodeAux_four (rest.length + 3) _ _ _ _ rest (by omega) (by omega)
          ⟨by omega, by omega, by omega, by omega, by omega, by omega, by omega, by omega⟩]
        rw [utf8DecodeAux_congr (rest.length + 3) rest.length rest (by omega) (by omega),
          show (240 + c / 262144 - 240) * 262144 + (128 + c / 4096 % 64 - 128) * 4096 +
            (128 + c / 64 % 64 - 128) * 64 + (128 + c % 64 - 128) = c from by omega]

/-- Decoding inverts encoding on any sequence of scalar values. -/
theorem utf8Decode_encode (s : List Nat)
    (h : ∀ c ∈ s, c < 1114112 ∧ (c < 55296 ∨ 57343 < c)) :
    utf8Decode (utf8Encode s) = s := by
  induction s with
  | nil => rfl
  | cons c s ih =>
    have hc := h c (by simp)
    rw [utf8Encode, List.flatMap_cons,
      utf8Decode_encodeChar c hc.1 hc.2 (s.flatMap utf8EncodeChar)]
    rw [show s.flatMap utf8EncodeChar = utf8Encode s from rfl,
      ih (fun c hcs => h c (by simp [hcs]))]

/-- The UTF-8 encoding of a nonzero code point contains no zero byte. -/
theorem utf8EncodeChar_pos (c : Nat) (hc : 0 < c) : ∀ b ∈ utf8EncodeChar c, 0 < b := by
  intro b hb
  unfold utf8EncodeChar at hb
  split_ifs at hb <;> simp at hb <;> omega

theorem utf8Encode_pos (name : List Nat) (h : ∀ c ∈ name, 0 < c) :
    ∀ b ∈ utf8Encode name, 0 < b := by
  intro b hb
  simp only [utf8Encode, List.mem_flatMap] at hb
  obtain ⟨c, hc, hbc⟩ := hb
  exact utf8EncodeChar_pos c (h c hc) b hbc

/-- Cutting at the first NUL recovers a NUL-free prefix from its
zero-padding. -/
theorem takeWhile_append_replicate_zero (l : List Nat) (k : Nat) (hl : ∀ b ∈ l, 0 < b) :
    (l ++ List.replicate k 0).takeWhile (fun x => x != 0) = l := by
  induction l with
  | nil =>
    cases k with
    | zero => rfl
    | succ k => simp [List.replicate_succ, List.takeWhile_cons]
  | cons a t ih =>
    have ha : 0 < a := hl a (by simp)
    simp only [List.cons_append, List.takeWhile_cons]
    rw [if_pos (by simpa using ha.ne')]
    rw [ih (fun b hb => hl b (by simp [hb]))]

theorem pack_name_32_length (name : List Nat) : (pack_name_32 name).length = 32 := by
  simp only [pack_name_32, List.length_append, List.length_replicate, List.length_take]
  omega

/-- Unpacking the packed form of a valid name recovers the name. -/
theorem unpack_pack_name (name : List Nat) (h : ValidName name) :
    unpack_name_32 (pack_name_32 name) = name := by
  obtain ⟨hv, hlen⟩ := h
  have he : (utf8Encode name).take 32 = utf8Encode name := List.take_of_length_le hlen
  have h32 : (pack_name_32 name).length ≤ 32 := le_of_eq (pack_name_32_length name)
  unfold unpack_name_32
  rw [List.take_of_length_le h32]
  unfold pack_name_32
  simp only [he]
  rw [takeWhile_append_replicate_zero _ _ (utf8Encode_pos name (fun c hc => (hv c hc).1))]
  exact utf8Decode_encode name (fun c hc => ⟨(hv c hc).2.1, (hv c hc).2.2⟩)

theorem except_bind_ok {e a b : Type} (x : a) (f : a → Except e b) :
    Except.bind (Except.ok x) f = f x := rfl

/-- C1: decoding inverts encoding for every message type on valid input:
offers for any 16-bit port and valid name, requests for any rounds count in
1..255 and valid team name, client payloads for either allowed decision, and
server payloads for any in-range (result, rank, suit). -/
theorem c1_roundtrip :
    (∀ (port : Nat) (name : List Nat), port < 65536 → ValidName name →
      Except.bind (pack_offer port name) unpack_offer = .ok (port, name)) ∧
    (∀ (n : Nat) (team : List Nat), 1 ≤ n → n ≤ 255 → ValidName team →
      Except.bind (pack_request n team) unpack_request = .ok (n, team)) ∧
    (∀ d : String, d = "Hittt" ∨ d = "Stand" →
      Except.bind (pack_payload_client d) unpack_payload_client = .ok d) ∧
    (∀ result rank suit : Nat, result ≤ 3 → 1 ≤ rank → rank ≤ 13 → suit ≤ 3 →
      Except.bind (pack_payload_server result rank suit) unpack_payload_server =
        .ok (result, rank, suit)) := by
  refine ⟨fun port name hport hname => ?_, fun n team hn1 hn2 hteam => ?_,
    fun d hd => ?_, fun result rank suit h1 h2 h3 h4 => ?_⟩
  · rw [pack_offer, if_pos hport, except_bind_ok]
    rw [show u32be MAGIC_COOKIE ++ [TYPE_OFFER] ++ u16be port ++ pack_name_32 name =
      171 :: 205 :: 205 :: 186 :: 2 :: (port / 256 % 256) :: port % 256 ::
        pack_name_32 name from by simp [u32be, u16be, MAGIC_COOKIE, TYPE_OFFER]]
    rw [unpack_offer, if_neg (by simp [pack_name_32_length]),
      if_neg (by norm_num [readU32, List.getD_cons_zero, List.getD_cons_succ,
        MAGIC_COOKIE, TYPE_OFFER])]
    simp only [readU16, List.getD_cons_succ, List.getD_cons_zero,
      List.drop_succ_cons, List.drop_zero]
    rw [List.take_of_length_le (le_of_eq (pack_name_32_length name)),
      unpack_pack_name name hname,
      show (port / 256 % 256) * 256 + port % 256 = port from by omega]
  · rw [pack_request, if_pos ⟨hn1, hn2⟩, except_bind_ok]
    rw [show u32be MAGIC_COOKIE ++ [TYPE_REQUEST] ++ [n] ++ pack_name_32 team =
      171 :: 205 :: 205 :: 186 :: 3 :: n :: pack_name_32 team from by
        simp [u32be, MAGIC_COOKIE, TYPE_REQUEST]]
    rw [unpack_request, if_neg (by simp [pack_name_32_length]),
      if_neg (by norm_num [readU32, List.getD_cons_zero, List.getD_cons_succ,
        MAGIC_COOKIE, TYPE_REQUEST])]
    simp only [List.getD_cons_succ, List.getD_cons_zero, List.drop_succ_cons,
      List.drop_zero]
    rw [List.take_of_length_le (le_of_eq (pack_name_32_length team)),
      unpack_pack_name team hteam]
  · rcases hd with rfl | rfl <;> rfl
  · rw [pack_payload_server, if_pos ((result_mem_iff result).mpr h1),
      if_pos ⟨h2, h3⟩, if_pos h4, except_bind_ok]
    rw [show u32be MAGIC_COOKIE ++ [TYPE_PAYLOAD] ++ [result] ++ u16be rank ++ [suit] =
      171 :: 205 :: 205 :: 186 :: 4 :: result :: (rank / 256 % 256) :: rank % 256 ::
        suit :: [] from by simp [u32be, u16be, MAGIC_COOKIE, TYPE_PAYLOAD]]
    rw [unpack_payload_server, if_neg (by simp),
      if_neg (by norm_num [readU32, List.getD_cons_zero, List.getD_cons_succ,
        MAGIC_COOKIE, TYPE_PAYLOAD])]
    simp only [readU16, List.getD_cons_succ, List.getD_cons_zero]
    rw [show (rank / 256 % 256) * 256 + rank % 256 = rank from by omega]

/-- Witness for C1 at a concrete port, name ("Alpha"), round count, both
decisions and a concrete card payload. -/
theorem c1_roundtrip_witness :
    Except.bind (pack_offer 8080 [65, 108, 112, 104, 97]) unpack_offer =
      .ok (8080, [65, 108, 112, 104, 97]) ∧
    Except.bind (pack_request 3 [65, 108, 112, 104, 97]) unpack_request =
      .ok (3, [65, 108, 112, 104, 97]) ∧
    Except.bind (pack_payload_client "Hittt") unpack_payload_client = .ok "Hittt" ∧
    Except.bind (pack_payload_client "Stand") unpack_payload_client = .ok "Stand" ∧
    Except.bind (pack_payload_server 3 13 2) unpack_payload_server = .ok (3, 13, 2) :=
  ⟨c1_roundtrip.1 8080 [65, 108, 112, 104, 97] (by decide) ⟨by decide, by decide⟩,
    c1_roundtrip.2.1 3 [65, 108, 112, 104, 97] (by decide) (by decide) ⟨by decide, by decide⟩,
    c1_roundtrip.2.2.1 "Hittt" (Or.inl rfl),
    c1_roundtrip.2.2.1 "Stand" (Or.inr rfl),
    c1_roundtrip.2.2.2 3 13 2 (by decide) (by decide) (by decide) (by decide)⟩

/-! ## Round state machine lemmas -/

theorem dealer_loop_stand (deck dealer : List Card) (last : Card) (p : Nat)
    (h : ¬ hand_total dealer < 17) :
    dealer_draw_loop deck dealer last p =
      .ok ([(resolve_result p (hand_total dealer), last)],
        resolve_result p (hand_total dealer)) := by
  rw [dealer_draw_loop.eq_def, if_neg h]

theorem dealer_loop_empty (dealer : List Card) (last : Card) (p : Nat)
    (h : hand_total dealer < 17) :
    dealer_draw_loop [] dealer last p = .error .deckEmpty := by
  rw [dealer_draw_loop.eq_def, if_pos h]
  rfl

theorem dealer_loop_draw (deck deck' : List Card) (c : Card) (dealer : List Card)
    (last : Card) (p : Nat) (hlt : hand_total dealer < 17)
    (hdraw : Deck.draw deck = .ok (c, deck')) :
    dealer_draw_loop deck dealer last p =
      (if hand_bust (dealer ++ [c]) then .ok ([(RESULT_WIN, c)], RESULT_WIN)
      else
        match dealer_draw_loop deck' (dealer ++ [c]) c p with
        | .ok (sent, out) => .ok ((RESULT_NOT_OVER, c) :: sent, out)
        | .error e => .error e) := by
  rw [dealer_draw_loop.eq_def, if_pos hlt]
  split
  · rename_i e heq
    rw [hdraw] at heq
    cases heq
  · rename_i c2 deck2 heq
    rw [hdraw] at heq
    cases heq
    rfl

theorem player_loop_stand (rest : List String) (deck player dealer : List Card)
    (d2 : Card) :
    player_turn_loop ("Stand" :: rest) deck player dealer d2 =
      (match dealer_draw_loop deck dealer d2 (hand_total player) with
      | .ok (sent, out) => .ok ((RESULT_NOT_OVER, d2) :: sent, out)
      | .error e => .error e) := by
  simp only [player_turn_loop]
  rw [if_pos (Or.inr trivial), if_pos trivial]

theorem player_loop_hit (rest : List String) (deck player dealer : List Card)
    (d2 : Card) :
    player_turn_loop ("Hittt" :: rest) deck player dealer d2 =
      (match Deck.draw deck with
      | .error _ => .error .deckEmpty
      | .ok (c, deck') =>
        if hand_bust (player ++ [c]) then .ok ([(RESULT_LOSS, c)], RESULT_LOSS)
        else
          match player_turn_loop rest deck' (player ++ [c]) dealer d2 with
          | .ok (sent, out) => .ok ((RESULT_NOT_OVER, c) :: sent, out)
          | .error e => .error e) := by
  simp only [player_turn_loop]
  rw [if_pos (Or.inl trivial), if_neg (by decide : ¬("Hittt" = "Stand"))]

theorem player_loop_invalid (dec : String) (rest : List String)
    (deck player dealer : List Card) (d2 : Card) (h1 : dec ≠ "Hittt") (h2 : dec ≠ "Stand") :
    player_turn_loop (dec :: rest) deck player dealer d2 = .error .invalidDecision := by
  simp only [player_turn_loop]
  rw [if_neg (by simp [h1, h2])]

theorem card_value_ge_two (r : Nat) : 2 ≤ card_value r := by
  unfold card_value
  split_ifs <;> omega

theorem card_value_le_eleven (r : Nat) : card_value r ≤ 11 := by
  unfold card_value
  split_ifs <;> omega

theorem hand_total_append (h : List Card) (c : Card) :
    hand_total (h ++ [c]) = hand_total h + card_value c.1 := by
  simp [hand_total]

theorem hand_total_pair (c1 c2 : Card) :
    hand_total [c1, c2] = card_value c1.1 + card_value c2.1 := by
  simp [hand_total]

theorem hand_bust_iff (h : List Card) : hand_bust h = true ↔ 21 < hand_total h := by
  simp [hand_bust]

/-- C4: while the dealer total is below 17 the loop always draws (an empty
deck is the hard deck-exhausted fault, never a normal exit); the instant the
total is at least 17 the loop stops without drawing, sending one resolution
payload; a draw that busts the dealer is sent with result WIN and ends the
round with outcome WIN at once; a non-busting draw is sent with result
NOT_OVER and the loop continues. -/
theorem c4_dealer_loop :
    (∀ (deck dealer : List Card) (last : Card) (p : Nat), 17 ≤ hand_total dealer →
      dealer_draw_loop deck dealer last p =
        .ok ([(resolve_result p (hand_total dealer), last)],
          resolve_result p (hand_total dealer))) ∧
    (∀ (dealer : List Card) (last : Card) (p : Nat), hand_total dealer < 17 →
      dealer_draw_loop [] dealer last p = .error .deckEmpty) ∧
    (∀ (deck deck' : List Card) (c : Card) (dealer : List Card) (last : Card) (p : Nat),
      hand_total dealer < 17 → Deck.draw deck = .ok (c, deck') →
      21 < hand_total (dealer ++ [c]) →
      dealer_draw_loop deck dealer last p = .ok ([(RESULT_WIN, c)], RESULT_WIN)) ∧
    (∀ (deck deck' : List Card) (c : Card) (dealer : List Card) (last : Card) (p : Nat),
      hand_total dealer < 17 → Deck.draw deck = .ok (c, deck') →
      hand_total (dealer ++ [c]) ≤ 21 →
      dealer_draw_loop deck dealer last p =
        Except.map (fun r => ((RESULT_NOT_OVER, c) :: r.1, r.2))
          (dealer_draw_loop deck' (dealer ++ [c]) c p)) := by
  refine ⟨fun deck dealer last p h => dealer_loop_stand deck dealer last p (by omega),
    fun dealer last p h => dealer_loop_empty dealer last p h,
    fun deck deck' c dealer last p hlt hdraw hbust => ?_,
    fun deck deck' c dealer last p hlt hdraw hok => ?_⟩
  · rw [dealer_loop_draw deck deck' c dealer last p hlt hdraw,
      if_pos ((hand_bust_iff _).mpr hbust)]
  · rw [dealer_loop_draw deck deck' c dealer last p hlt hdraw,
      if_neg (by rw [hand_bust_iff]; omega)]
    cases hres : dealer_draw_loop deck' (dealer ++ [c]) c p with
    | ok x => obtain ⟨sent, out⟩ := x; rfl
    | error e => rfl

/-- Witness for C4: a standing dealer (total 19 beats 18 is irrelevant here:
player 20 vs dealer 19 gives WIN), an empty deck below 17, a busting draw,
and a non-busting draw. -/
theorem c4_dealer_loop_witness :
    dealer_draw_loop [] [(10, 0), (9, 1)] (2, 2) 20 =
      .ok ([(RESULT_WIN, ((2, 2) : Card))], RESULT_WIN) ∧
    dealer_draw_loop [] [(2, 0), (3, 1)] (2, 2) 20 = .error .deckEmpty ∧
    dealer_draw_loop [(10, 2)] [(10, 0), (4, 1)] (2, 2) 20 =
      .ok ([(RESULT_WIN, ((10, 2) : Card))], RESULT_WIN) ∧
    dealer_draw_loop [(2, 2)] [(2, 0), (2, 1)] (5, 3) 18 =
      Except.map (fun r => ((RESULT_NOT_OVER, ((2, 2) : Card)) :: r.1, r.2))
        (dealer_draw_loop [] [(2, 0), (2, 1), (2, 2)] (2, 2) 18) :=
  ⟨c4_dealer_loop.1 [] [(10, 0), (9, 1)] (2, 2) 20 (by decide),
    c4_dealer_loop.2.1 [(2, 0), (3, 1)] (2, 2) 20 (by decide),
    c4_dealer_loop.2.2.1 [(10, 2)] [] (10, 2) [(10, 0), (4, 1)] (2, 2) 20 (by decide)
      rfl (by decide),
    c4_dealer_loop.2.2.2 [(2, 2)] [] (2, 2) [(2, 0), (2, 1)] (5, 3) 18 (by decide)
      rfl (by decide)⟩

/-- C5: a dealer standing on a total in 17..21 resolves the round by total
comparison (player above dealer WIN, below LOSS, equal TIE) and sends that
result code attached to the last card dealt to the dealer, re-sent without
drawing; when the dealer drew nothing, the Stand path sends the hole-card
reveal and then that same hole card with the comparison result. -/
theorem c5_resolution :
    (∀ (deck dealer : List Card) (last : Card) (p : Nat),
      17 ≤ hand_total dealer → hand_total dealer ≤ 21 →
      dealer_draw_loop deck dealer last p =
        .ok ([(resolve_result p (hand_total dealer), last)],
          resolve_result p (hand_total dealer))) ∧
    (∀ p t : Nat, (t < p → resolve_result p t = RESULT_WIN) ∧
      (p < t → resolve_result p t = RESULT_LOSS) ∧
      (p = t → resolve_result p t = RESULT_TIE)) ∧
    (∀ (rest : List String) (deck player dealer : List Card) (d2 : Card),
      17 ≤ hand_total dealer → hand_total dealer ≤ 21 →
      player_turn_loop ("Stand" :: rest) deck player dealer d2 =
        .ok ([(RESULT_NOT_OVER, d2),
          (resolve_result (hand_total player) (hand_total dealer), d2)],
          resolve_result (hand_total player) (hand_total dealer))) := by
  refine ⟨fun deck dealer last p h1 h2 => dealer_loop_stand deck dealer last p (by omega),
    fun p t => ⟨fun h => ?_, fun h => ?_, fun h => ?_⟩,
    fun rest deck player dealer d2 h1 h2 => ?_⟩
  · unfold resolve_result RESULT_WIN RESULT_LOSS RESULT_TIE
    split_ifs <;> omega
  · unfold resolve_result RESULT_WIN RESULT_LOSS RESULT_TIE
    split_ifs <;> omega
  · unfold resolve_result RESULT_WIN RESULT_LOSS RESULT_TIE
    split_ifs <;> omega
  · rw [player_loop_stand, dealer_loop_stand deck dealer d2 (hand_total player) (by omega)]

/-- Witness for C5: dealer shows 17 against player 18 (WIN re-sending the
hole card), the three comparison outcomes, and the Stand path. -/
theorem c5_resolution_witness :
    dealer_draw_loop [] [(10, 0), (7, 1)] (4, 2) 18 =
      .ok ([(RESULT_WIN, ((4, 2) : Card))], RESULT_WIN) ∧
    resolve_result 5 3 = RESULT_WIN ∧ resolve_result 3 5 = RESULT_LOSS ∧
    resolve_result 4 4 = RESULT_TIE ∧
    player_turn_loop ["Stand"] [] [(10, 0), (8, 1)] [(10, 2), (7, 3)] (9, 0) =
      .ok ([(RESULT_NOT_OVER, ((9, 0) : Card)), (RESULT_WIN, ((9, 0) : Card))],
        RESULT_WIN) :=
  ⟨c5_resolution.1 [] [(10, 0), (7, 1)] (4, 2) 18 (by decide) (by decide),
    (c5_resolution.2.1 5 3).1 (by decide), (c5_resolution.2.1 3 5).2.1 (by decide),
    (c5_resolution.2.1 4 4).2.2 rfl,
    c5_resolution.2.2 ["Stand"].tail [] [(10, 0), (8, 1)] [(10, 2), (7, 3)] (9, 0)
      (by decide) (by decide)⟩

/-- C6: a "Hittt" decision draws one card and appends it to the player hand;
if the new total exceeds 21 the server sends exactly one more payload, that
card with result LOSS, and the round ends with outcome LOSS (no hole-card
reveal, no dealer messages); otherwise the card is sent with result NOT_OVER
and the loop stays in the player turn. -/
theorem c6_player_hit :
    (∀ (rest : List String) (deck deck' player dealer : List Card) (c d2 : Card),
      Deck.draw deck = .ok (c, deck') → 21 < hand_total (player ++ [c]) →
      player_turn_loop ("Hittt" :: rest) deck player dealer d2 =
        .ok ([(RESULT_LOSS, c)], RESULT_LOSS)) ∧
    (∀ (rest : List String) (deck deck' player dealer : List Card) (c d2 : Card),
      Deck.draw deck = .ok (c, deck') → hand_total (player ++ [c]) ≤ 21 →
      player_turn_loop ("Hittt" :: rest) deck player dealer d2 =
        Except.map (fun r => ((RESULT_NOT_OVER, c) :: r.1, r.2))
          (player_turn_loop rest deck' (player ++ [c]) dealer d2)) := by
  refine ⟨fun rest deck deck' player dealer c d2 hdraw hbust => ?_,
    fun rest deck deck' player dealer c d2 hdraw hok => ?_⟩
  · rw [player_loop_hit]
    simp only [hdraw]
    rw [if_pos ((hand_bust_iff _).mpr hbust)]
  · rw [player_loop_hit]
    simp only [hdraw]
    rw [if_neg (by rw [hand_bust_iff]; omega)]
    cases hres : player_turn_loop rest deck' (player ++ [c]) dealer d2 with
    | ok x => obtain ⟨sent, out⟩ := x; rfl
    | error e => rfl

/-- Witness for C6: a hit to 23 loses at once; a hit to 14 continues. -/
theorem c6_player_hit_witness :
    player_turn_loop ["Hittt"] [(10, 2)] [(10, 0), (3, 1)] [(5, 0), (5, 1)] (5, 1) =
      .ok ([(RESULT_LOSS, ((10, 2) : Card))], RESULT_LOSS) ∧
    player_turn_loop ["Hittt"] [(2, 2)] [(10, 0), (2, 1)] [(5, 0), (5, 1)] (5, 1) =
      Except.map (fun r => ((RESULT_NOT_OVER, ((2, 2) : Card)) :: r.1, r.2))
        (player_turn_loop [] [] [(10, 0), (2, 1), (2, 2)] [(5, 0), (5, 1)] (5, 1)) :=
  ⟨c6_player_hit.1 [] [(10, 2)] [] [(10, 0), (3, 1)] [(5, 0), (5, 1)] (10, 2) (5, 1)
      rfl (by decide),
    c6_player_hit.2 [] [(2, 2)] [] [(10, 0), (2, 1)] [(5, 0), (5, 1)] (2, 2) (5, 1)
      rfl (by decide)⟩

/-- C10: the round checks for a player bust only after a "Hittt" draw, never
after the initial deal: when the two initial player cards total over 21 (the
only possibility being two aces, 22) and the client immediately stands, the
round proceeds through the hole-card reveal and resolves by ordinary total
comparison, so the busted 22 beats any dealer standing on 17..21 and the
round ends with outcome WIN. -/
theorem c10_initial_bust_unchecked (k4 : List Card) (p1 p2 d1 d2 : Card)
    (hp : 21 < hand_total [p1, p2]) (hd1 : 17 ≤ hand_total [d1, d2])
    (hd2 : hand_total [d1, d2] ≤ 21) :
    play_round (k4 ++ [d2, d1, p2, p1]) ["Stand"] =
      .ok ([(RESULT_NOT_OVER, p1), (RESULT_NOT_OVER, p2), (RESULT_NOT_OVER, d1),
        (RESULT_NOT_OVER, d2), (RESULT_WIN, d2)], RESULT_WIN) := by
  have hsplit : k4 ++ [d2, d1, p2, p1] = (((k4 ++ [d2]) ++ [d1]) ++ [p2]) ++ [p1] := by
    simp
  rw [hsplit]
  simp only [play_round, draw_concat]
  rw [player_loop_stand, dealer_loop_stand k4 [d1, d2] d2 (hand_total [p1, p2]) (by omega)]
  rw [show resolve_result (hand_total [p1, p2]) (hand_total [d1, d2]) = RESULT_WIN from by
    unfold resolve_result; rw [if_pos (by omega)]]

/-- Witness for C10: two aces against a dealer 10+7, one-card deck tail. -/
theorem c10_initial_bust_unchecked_witness :
    play_round ([((5, 0) : Card)] ++ [(10, 2), (7, 3), (1, 1), (1, 0)]) ["Stand"] =
      .ok ([(RESULT_NOT_OVER, ((1, 0) : Card)), (RESULT_NOT_OVER, ((1, 1) : Card)),
        (RESULT_NOT_OVER, ((7, 3) : Card)), (RESULT_NOT_OVER, ((10, 2) : Card)),
        (RESULT_WIN, ((10, 2) : Card))], RESULT_WIN) :=
  c10_initial_bust_unchecked [(5, 0)] (1, 0) (1, 1) (7, 3) (10, 2)
    (by decide) (by decide) (by decide)

/-- The dealer draw loop cannot exhaust the deck when the deck holds enough
cards to carry the dealer total to 17 (every card is worth at least 2). -/
theorem dealer_loop_ok : ∀ (n : Nat) (deck dealer : List Card) (last : Card) (p : Nat),
    deck.length ≤ n → 17 ≤ hand_total dealer + 2 * deck.length →
    ∃ x, dealer_draw_loop deck dealer last p = .ok x := by
  intro n
  induction n with
  | zero =>
    intro deck dealer last p hl ht
    have h0 : deck = [] := List.length_eq_zero.mp (by omega)
    subst h0
    simp only [List.length_nil] at ht
    exact ⟨_, dealer_loop_stand [] dealer last p (by omega)⟩
  | succ n ih =>
    intro deck dealer last p hl ht
    by_cases h17 : hand_total dealer < 17
    · rcases List.eq_nil_or_concat deck with rfl | ⟨L, c, rfl⟩
      · simp only [List.length_nil] at ht
        omega
      · simp only [List.concat_eq_append, List.length_append, List.length_singleton] at hl ht ⊢
        by_cases hb : 21 < hand_total (dealer ++ [c])
        · exact ⟨_, by rw [dealer_loop_draw (L ++ [c]) L c dealer last p h17 (draw_concat L c),
            if_pos ((hand_bust_iff _).mpr hb)]⟩
        · obtain ⟨x, hx⟩ := ih L (dealer ++ [c]) c p (by omega)
            (by rw [hand_total_append]; have := card_value_ge_two c.1; omega)
          obtain ⟨sent, out⟩ := x
          refine ⟨((RESULT_NOT_OVER, c) :: sent, out), ?_⟩
          rw [dealer_loop_draw (L ++ [c]) L c dealer last p h17 (draw_concat L c),
            if_neg (by rw [hand_bust_iff]; omega), hx]
    · exact ⟨_, dealer_loop_stand deck dealer last p h17⟩

/-- The player turn cannot raise the deck-exhausted fault when the deck is
deep enough: every hit either busts (ending the round) or adds at least 2 to
a total that stays at most 21, and the dealer turn then needs at most what
is left. -/
theorem player_loop_no_exhaust : ∀ (decisions : List String)
    (deck player dealer : List Card) (d2 : Card),
    38 ≤ hand_total player + 2 * deck.length → hand_total player ≤ 22 →
    4 ≤ hand_total dealer →
    player_turn_loop decisions deck player dealer d2 ≠ .error .deckEmpty := by
  intro decisions
  induction decisions with
  | nil =>
    intro deck player dealer d2 h1 h2 h3
    simp [player_turn_loop]
  | cons dec rest ih =>
    intro deck player dealer d2 h1 h2 h3
    by_cases hs : dec = "Stand"
    · subst hs
      rw [player_loop_stand]
      obtain ⟨x, hx⟩ := dealer_loop_ok deck.length deck dealer d2 (hand_total player)
        (le_refl _) (by omega)
      rw [hx]
      obtain ⟨sent, out⟩ := x
      simp
    · by_cases hh : dec = "Hittt"
      · subst hh
        rw [player_loop_hit]
        rcases List.eq_nil_or_concat deck with rfl | ⟨L, c, rfl⟩
        · simp only [List.length_nil] at h1
          omega
        · simp only [List.concat_eq_append, List.length_append,
            List.length_singleton] at h1 ⊢
          simp only [draw_concat]
          by_cases hb : 21 < hand_total (player ++ [c])
          · rw [if_pos ((hand_bust_iff _).mpr hb)]
            simp
          · rw [if_neg (by rw [hand_bust_iff]; omega)]
            have hrec := ih L (player ++ [c]) dealer d2
              (by rw [hand_total_append]; have := card_value_ge_two c.1; omega)
              (by omega) h3
            cases hres : player_turn_loop rest L (player ++ [c]) dealer d2 with
            | ok x =>
              obtain ⟨sent, out⟩ := x
              simp
            | error e =>
              rw [hres] at hrec
              exact hrec
      · rw [player_loop_invalid dec rest deck player dealer d2 hh hs]
        simp

/-- C9: on any shuffle of the fresh 52-card deck, a round never reaches the
draw-on-empty-deck fault, whatever decision sequence the client sends: 4
initial draws, at most a handful of player hits (each worth at least 2
until a bust ends the round) and dealer draws to 17 stay within 52 cards,
so `Deck.draw`'s error branch never fires inside `play_round`. -/
theorem c9_no_deck_exhaustion (deck : List Card) (decisions : List String)
    (hperm : deck.Perm freshDeck) :
    play_round deck decisions ≠ .error .deckEmpty := by
  have hlen : deck.length = 52 := by rw [hperm.length_eq, freshDeck_length]
  rcases List.eq_nil_or_concat deck with rfl | ⟨A, p1, rfl⟩
  · simp at hlen
  rcases List.eq_nil_or_concat A with rfl | ⟨B, p2, rfl⟩
  · simp [List.concat_eq_append] at hlen
  rcases List.eq_nil_or_concat B with rfl | ⟨C, d1, rfl⟩
  · simp [List.concat_eq_append] at hlen
  rcases List.eq_nil_or_concat C with rfl | ⟨K, d2, rfl⟩
  · simp [List.concat_eq_append] at hlen
  simp only [List.concat_eq_append, List.length_append, List.length_singleton] at hlen ⊢
  simp only [play_round, draw_concat]
  have hplayer := player_loop_no_exhaust decisions K [p1, p2] [d1, d2] d2
    (by rw [hand_total_pair]; omega)
    (by rw [hand_total_pair]
        have := card_value_le_eleven p1.1
        have := card_value_le_eleven p2.1
        omega)
    (by rw [hand_total_pair]
        have := card_value_ge_two d1.1
        have := card_value_ge_two d2.1
        omega)
  cases hres : player_turn_loop decisions K [p1, p2] [d1, d2] d2 with
  | ok x =>
    obtain ⟨sent, out⟩ := x
    simp
  | error e =>
    rw [hres] at hplayer
    exact hplayer

/-- Witness for C9 at the unshuffled fresh deck and an empty decision queue. -/
theorem c9_no_deck_exhaustion_witness :
    play_round freshDeck [] ≠ .error .deckEmpty :=
  c9_no_deck_exhaustion freshDeck [] (List.Perm.refl _)

/-- C7 counterexample: the team name consisting of the single ASCII control
character U+0001 (category Cc, non-printable in Python, and it survives wire
decoding, unlike NUL) is sanitized to "?" (code point 63), not to the
"UnknownTeam" placeholder: the sanitizer replaces non-printable characters
with "?" instead of stripping them. -/
theorem c7_sanitize_counterexample :
    sanitize_team_name [1] = [63] ∧ sanitize_team_name [1] ≠ unknownTeam := by
  constructor <;> decide

/-- C7 amended, stated over ASCII names (the fragment where the printable
and whitespace tables are modelled exactly): sanitization replaces every
non-printable character with "?", strips leading and trailing whitespace,
substitutes "UnknownTeam" when the stripped result is empty (in particular
for an all-space name), and caps the result at 32 characters; it never
returns an empty name; but a name consisting only of non-printable
characters becomes a string of question marks, not the placeholder. -/
theorem c7_sanitize_amended :
    (∀ name : List Nat, (∀ c ∈ name, c < 128) →
      (sanitize_team_name name).length ≤ 32) ∧
    (∀ name : List Nat, (∀ c ∈ name, c < 128) → sanitize_team_name name ≠ []) ∧
    (∀ name : List Nat, (∀ c ∈ name, c < 128) → name ≠ [] →
      (∀ c ∈ name, pyIsPrintableAscii c = false) →
      sanitize_team_name name = List.replicate (min 32 name.length) 63) ∧
    (∀ name : List Nat, (∀ c ∈ name, c = 32) →
      sanitize_team_name name = unknownTeam) := by
  refine ⟨fun name _ => ?_, fun name _ => ?_, fun name _ hne hall => ?_,
    fun name hall => ?_⟩
  · simp only [sanitize_team_name, List.length_take]
    omega
  · simp only [sanitize_team_name]
    split_ifs with h
    · decide
    · intro hcontra
      rcases List.take_eq_nil_iff.mp hcontra with h32 | hnil
      · cases h32
      · exact h hnil
  · have hmap : name.map (fun ch => if pyIsPrintableAscii ch then ch else 63) =
        List.replicate name.length 63 := by
      rw [List.eq_replicate_iff]
      refine ⟨by simp, ?_⟩
      intro b hb
      simp only [List.mem_map] at hb
      obtain ⟨c, hc, rfl⟩ := hb
      simp [hall c hc]
    have hdrop : ∀ n : Nat, (List.replicate n (63 : Nat)).dropWhile pyIsSpaceAscii =
        List.replicate n 63 := by
      intro n
      cases n with
      | zero => rfl
      | succ n => simp [List.replicate_succ, List.dropWhile_cons, pyIsSpaceAscii]
    have hstrip : pyStrip (List.replicate name.length 63) =
        List.replicate name.length 63 := by
      simp only [pyStrip, hdrop, List.reverse_replicate]
    have hlen : name.length ≠ 0 := by
      intro h0
      exact hne (List.length_eq_zero.mp h0)
    simp only [sanitize_team_name, hmap, hstrip]
    rw [if_neg (by simp [List.replicate_eq_nil_iff, hlen])]
    simp [List.take_replicate]
  · have hmap : name.map (fun ch => if pyIsPrintableAscii ch then ch else 63) = name := by
      conv_rhs => rw [show name = name.map id from (List.map_id name).symm]
      apply List.map_congr_left
      intro a ha
      rw [hall a ha]
      decide
    have hdrop : name.dropWhile pyIsSpaceAscii = [] := by
      rw [List.dropWhile_eq_nil_iff]
      intro x hx
      rw [hall x hx]
      decide
    simp only [sanitize_team_name, hmap, pyStrip, hdrop, List.reverse_nil,
      List.dropWhile_nil]
    decide

/-- Witness for C7 amended at a printable, an all-non-printable and an
all-space ASCII name. -/
theorem c7_sanitize_amended_witness :
    (sanitize_team_name [65]).length ≤ 32 ∧
    sanitize_team_name [65] ≠ [] ∧
    sanitize_team_name [1, 1, 1] = List.replicate (min 32 3) 63 ∧
    sanitize_team_name [32, 32] = unknownTeam :=
  ⟨c7_sanitize_amended.1 [65] (by decide),
    c7_sanitize_amended.2.1 [65] (by decide),
    c7_sanitize_amended.2.2.1 [1, 1, 1] (by decide) (by decide) (by decide),
    c7_sanitize_amended.2.2.2 [32, 32] (by decide)⟩
